import Mathlib

/-!
Shallow embedding of `backend/concepts/collaboration.py` (class
`CollaborationConcept`).

Modelling decisions:
* Python dicts keyed by strings become total functions `String → _` with the
  dict's "absent" default (`Option.none`, `[]`); `k in d` becomes a lookup.
* Python `set` of strings becomes a duplicate-free `List String` manipulated
  with `List.insert` (`set.add`) and `List.filter (· ≠ x)` (`set.discard`);
  only membership and emptiness are observed, matching the source.
* `uuid.uuid4()` freshness is modelled by an explicit counter for event ids
  and, for session ids, by a freshness side condition on the reachability
  relation (a uuid4 collision is assumed not to occur, as the source does).
* `datetime.now()` timestamps are dropped: no claim observes them.
* The operation dicts `{"type", "position", "text", "length", ...}` become a
  record `Operation` carrying exactly the keys the source reads; `{**op, ...}`
  becomes a record update, which preserves the remaining fields.
* A websocket is a `Conn` with an identity and a fixed `ok` flag telling
  whether `send_text` succeeds on it; `await websocket.send_text(...)` raising
  is `ok = false`.  `list.remove` (first occurrence, `ValueError` swallowed)
  is `removeFirst`.
* `async` methods have no interleaving inside a single call chain in the
  source (each `await` is on an internal call), so they are embedded as pure
  state-transformer functions; raising `ValueError` becomes `Except.error`.
-/

/-- An edit operation dict: the source reads `type`, `position`, `text` (for
inserts) and `length` (for deletes).  `{**operation, ...}` keeps the other
fields, so the record models every field the code can distinguish. -/
structure Operation where
  type : String
  position : Int
  text : String
  length : Int
deriving DecidableEq, Repr

/-- Mirror of the `CollaborationEvent` dataclass (timestamp dropped;
`event_id` is a `Nat` drawn from a fresh-id counter modelling `uuid4`). -/
structure CollaborationEvent where
  event_id : Nat
  session_id : String
  user_id : String
  event_type : String
  data : Operation
deriving DecidableEq, Repr

/-- Mirror of the `CollaborationSession` dataclass (creation timestamp
dropped; `participants` is a set modelled as a duplicate-free list). -/
structure CollaborationSession where
  session_id : String
  mockup_id : String
  created_by : String
  participants : List String
  is_active : Bool
deriving DecidableEq, Repr

/-- A websocket connection: an identity plus whether `send_text` on it
succeeds (`ok = false` models a dead channel whose send raises). -/
structure Conn where
  id : Nat
  ok : Bool
deriving DecidableEq, Repr

/-- The broadcast payload dicts built by `join_session`, `leave_session` and
`add_event`. -/
inductive BroadcastMsg where
  | user_joined (user_id : String) (participants : List String)
  | user_left (user_id : String) (participants : List String)
  | collaboration_event (event : CollaborationEvent)
deriving DecidableEq, Repr

/-- The mutable state of a `CollaborationConcept` instance. -/
structure ConceptState where
  sessions : String → Option CollaborationSession
  events : String → List CollaborationEvent
  user_sessions : String → List String
  websocket_connections : String → List Conn
  next_event_id : Nat

/-- Mirror of `CollaborationConcept.__init__`: all registries empty. -/
def initState : ConceptState :=
  { sessions := fun _ => none
    events := fun _ => []
    user_sessions := fun _ => []
    websocket_connections := fun _ => []
    next_event_id := 0 }

/-- Point update of a string-keyed map (`d[k] = v`). -/
def upd {α : Type} (m : String → α) (k : String) (v : α) : String → α :=
  fun k' => if k' = k then v else m k'

/-- Python `list.remove` wrapped in `try/except ValueError: pass`: delete the
first occurrence if present, otherwise leave the list unchanged. -/
def removeFirst (l : List Conn) (c : Conn) : List Conn :=
  match l with
  | [] => []
  | x :: xs => if x = c then xs else x :: removeFirst xs c

/-- The `for websocket in connections` loop of `_broadcast_event`: iterate
over the copied list; a successful send appends the channel to the delivered
trace, a failed send removes the channel from the live registry list (the
body of `unregister_websocket`).  Returns (live list, delivered trace). -/
def broadcastLoop (live delivered : List Conn) : List Conn → List Conn × List Conn
  | [] => (live, delivered)
  | c :: rest =>
    if c.ok then broadcastLoop live (delivered ++ [c]) rest
    else broadcastLoop (removeFirst live c) delivered rest

/-- Mirror of `_broadcast_event(session_id, event_data, exclude_user)`: loop over a copy
of the session's connection list, sending to each; dead connections are
unregistered.  The source never reads `exclude_user`.  The second component is
the trace of channels that received the message (the source's side effect of
`send_text`, made observable). -/
def broadcast_event (s : ConceptState) (session_id : String) (msg : BroadcastMsg)
    (exclude_user : Option String) : ConceptState × List Conn :=
  let conns := s.websocket_connections session_id
  let r := broadcastLoop conns [] conns
  ({ s with websocket_connections := upd s.websocket_connections session_id r.1 }, r.2)

/-- Mirror of `register_websocket(session_id, websocket)`. -/
def register_websocket (s : ConceptState) (session_id : String) (c : Conn) : ConceptState :=
  { s with
      websocket_connections :=
        upd s.websocket_connections session_id (s.websocket_connections session_id ++ [c]) }

/-- Mirror of `unregister_websocket(session_id, websocket)`. -/
def unregister_websocket (s : ConceptState) (session_id : String) (c : Conn) : ConceptState :=
  { s with
      websocket_connections :=
        upd s.websocket_connections session_id
          (removeFirst (s.websocket_connections session_id) c) }

/-- Mirror of `create_session(mockup_id, created_by)`: the fresh uuid4 session id is
passed explicitly; participants start as `{created_by}`, the session is
active, its event log is reset to `[]`, and the reverse index gains it. -/
def create_session (s : ConceptState) (session_id mockup_id created_by : String) :
    ConceptState × CollaborationSession :=
  let sess : CollaborationSession :=
    { session_id := session_id, mockup_id := mockup_id, created_by := created_by
      participants := [created_by], is_active := true }
  ({ s with
      sessions := upd s.sessions session_id (some sess)
      events := upd s.events session_id []
      user_sessions := fun u =>
        if u = created_by then (s.user_sessions u).insert session_id else s.user_sessions u },
   sess)

/-- Mirror of `join_session(session_id, user_id)`: false on unknown or inactive
session; otherwise add to participants and reverse index, broadcast a
`user_joined` message, return true. -/
def join_session (s : ConceptState) (session_id user_id : String) : ConceptState × Bool :=
  match s.sessions session_id with
  | none => (s, false)
  | some sess =>
    if sess.is_active = false then (s, false)
    else
      let sess1 := { sess with participants := sess.participants.insert user_id }
      let s1 := { s with
        sessions := upd s.sessions session_id (some sess1)
        user_sessions := fun u =>
          if u = user_id then (s.user_sessions u).insert session_id else s.user_sessions u }
      let s2 := (broadcast_event s1 session_id
        (.user_joined user_id sess1.participants) none).1
      (s2, true)

/-- Mirror of `leave_session(session_id, user_id)`: false only on unknown session;
otherwise discard the user from participants and reverse index, broadcast a
`user_left` message, and deactivate the session if its participant set became
empty. -/
def leave_session (s : ConceptState) (session_id user_id : String) : ConceptState × Bool :=
  match s.sessions session_id with
  | none => (s, false)
  | some sess =>
    let sess1 := { sess with participants := sess.participants.filter (fun p => p ≠ user_id) }
    let s1 := { s with
      sessions := upd s.sessions session_id (some sess1)
      user_sessions := fun u =>
        if u = user_id then (s.user_sessions u).filter (fun x => x ≠ session_id)
        else s.user_sessions u }
    let s2 := (broadcast_event s1 session_id
      (.user_left user_id sess1.participants) none).1
    let s3 :=
      if sess1.participants.isEmpty then
        { s2 with sessions := upd s2.sessions session_id (some { sess1 with is_active := false }) }
      else s2
    (s3, true)

/-- Mirror of `add_event(session_id, user_id, event_type, data)`: raise (`.error`) when
the session id is unknown; otherwise append one event with a fresh id to the
session's log and broadcast it (the source passes `exclude_user=user_id`). -/
def add_event (s : ConceptState) (session_id user_id event_type : String)
    (data : Operation) : Except String (ConceptState × CollaborationEvent) :=
  match s.sessions session_id with
  | none => .error "Session not found"
  | some _ =>
    let event : CollaborationEvent :=
      { event_id := s.next_event_id, session_id := session_id, user_id := user_id
        event_type := event_type, data := data }
    let s1 := { s with
      events := upd s.events session_id (s.events session_id ++ [event])
      next_event_id := s.next_event_id + 1 }
    let s2 := (broadcast_event s1 session_id
      (.collaboration_event event) (some user_id)).1
    .ok (s2, event)

/-- Python `l[-10:]` — the last `n` elements of a list. -/
def lastN (n : Nat) (l : List α) : List α := l.drop (l.length - n)

/-- The filtered recent window used by both transform helpers: the last 10
events of the log, restricted to `"operation"`-kind events authored by a
different user. -/
def recentOps (log : List CollaborationEvent) (user_id : String) : List CollaborationEvent :=
  (lastN 10 log).filter (fun e => e.user_id ≠ user_id ∧ e.event_type = "operation")

/-- The position-adjustment loop body shared by `_transform_insert` and
`_transform_delete`: comparisons are against the original submitted
position. -/
def adjustStep (opPos : Int) (acc : Int) (e : CollaborationEvent) : Int :=
  let d := e.data
  if d.type = "insert" ∧ d.position ≤ opPos then acc + (d.text.length : Int)
  else if d.type = "delete" ∧ d.position < opPos then acc - d.length
  else acc

/-- Mirror of `_transform_insert(session_id, operation, user_id)`. -/
def transform_insert (s : ConceptState) (session_id : String) (operation : Operation)
    (user_id : String) : Operation :=
  let recent := recentOps (s.events session_id) user_id
  let adjusted := recent.foldl (adjustStep operation.position) operation.position
  { operation with position := max 0 adjusted }

/-- Mirror of `_transform_delete(session_id, operation, user_id)`: same position
adjustment; `adjusted_length` is `operation["length"]`, never modified. -/
def transform_delete (s : ConceptState) (session_id : String) (operation : Operation)
    (user_id : String) : Operation :=
  let recent := recentOps (s.events session_id) user_id
  let adjusted := recent.foldl (adjustStep operation.position) operation.position
  { operation with position := max 0 adjusted, length := operation.length }

/-- The dispatch at the head of `apply_operational_transform`: inserts and
deletes are transformed, every other kind passes through unchanged. -/
def transformed_operation (s : ConceptState) (session_id : String) (operation : Operation)
    (user_id : String) : Operation :=
  if operation.type = "insert" then transform_insert s session_id operation user_id
  else if operation.type = "delete" then transform_delete s session_id operation user_id
  else operation

/-- Mirror of `apply_operational_transform(session_id, operation, user_id)`: transform,
then record the adjusted operation as an `"operation"`-kind event, then return
it. -/
def apply_operational_transform (s : ConceptState) (session_id : String)
    (operation : Operation) (user_id : String) :
    Except String (ConceptState × Operation) :=
  let t := transformed_operation s session_id operation user_id
  match add_event s session_id user_id "operation" t with
  | .error e => .error e
  | .ok (s', _) => .ok (s', t)

/-- One observable mutation of a `CollaborationConcept`.  The `create` step
carries the uuid4-freshness assumption `s.sessions session_id = none`. -/
inductive Step : ConceptState → ConceptState → Prop where
  | create (s : ConceptState) (session_id mockup_id created_by : String)
      (hfresh : s.sessions session_id = none) :
      Step s (create_session s session_id mockup_id created_by).1
  | join (s : ConceptState) (session_id user_id : String) :
      Step s (join_session s session_id user_id).1
  | leave (s : ConceptState) (session_id user_id : String) :
      Step s (leave_session s session_id user_id).1
  | addE (s : ConceptState) (session_id user_id event_type : String) (data : Operation)
      (s' : ConceptState) (e : CollaborationEvent)
      (h : add_event s session_id user_id event_type data = .ok (s', e)) :
      Step s s'

/-- States reachable from a freshly constructed concept. -/
inductive Reachable : ConceptState → Prop where
  | init : Reachable initState
  | step {s s' : ConceptState} : Reachable s → Step s s' → Reachable s'

/-- Per-event position shift, transcribed from the spec's wording: an insert
at a position ≤ the submitted position shifts forward by the length of its
inserted text; a delete at a position strictly less shifts backward by its
deleted length; every other concurrent operation contributes nothing. -/
def specShift (opPos : Int) (d : Operation) : Int :=
  if d.type = "insert" ∧ d.position ≤ opPos then (d.text.length : Int)
  else if d.type = "delete" ∧ d.position < opPos then -d.length
  else 0

/-- The session record `leave_session` leaves behind for the departed-from
session: the user is discarded and the session is deactivated exactly when
the participant set became empty. -/
def leaveResultSession (sess : CollaborationSession) (user_id : String) : CollaborationSession :=
  let p := sess.participants.filter (fun x => x ≠ user_id)
  { sess with participants := p
              is_active := if p.isEmpty then false else sess.is_active }

/-- Invariant: every active session has a non-empty participant set. -/
def ActiveNonempty (s : ConceptState) : Prop :=
  ∀ sid sess, s.sessions sid = some sess → sess.is_active = true →
    sess.participants ≠ []

/-- Invariant: the reverse user→sessions index agrees with the authoritative
participant sets. -/
def IndexConsistent (s : ConceptState) : Prop :=
  ∀ u sid, sid ∈ s.user_sessions u ↔
    ∃ sess, s.sessions sid = some sess ∧ u ∈ sess.participants

/-- Invariant: every logged event id is below the fresh-id counter. -/
def EventIdsBounded (s : ConceptState) : Prop :=
  ∀ sid e, e ∈ s.events sid → e.event_id < s.next_event_id

/-- A session created by `"alice"` in a fresh concept. -/
def st0 : ConceptState := (create_session initState "s1" "m1" "alice").1

/-- The session record created in `st0`. -/
def sess0 : CollaborationSession := (create_session initState "s1" "m1" "alice").2

/-- The state after the sole participant leaves `st0`: session `"s1"` is
inactive with an empty participant set. -/
def st1 : ConceptState := (leave_session st0 "s1" "alice").1

/-- The session record stored for `"s1"` in `st1`. -/
def sessInactive : CollaborationSession :=
  { session_id := "s1", mockup_id := "m1", created_by := "alice"
    participants := [], is_active := false }

/-- A sample insert operation. -/
def opIns : Operation := { type := "insert", position := 5, text := "XY", length := 0 }

/-- A sample broadcast message. -/
def msg0 : BroadcastMsg := .user_joined "alice" ["alice"]

/-! ### Helper lemmas -/

lemma upd_same {α : Type} (m : String → α) (k : String) (v : α) : upd m k v k = v := by
  simp [upd]

lemma upd_ne {α : Type} (m : String → α) (k k' : String) (v : α) (h : k' ≠ k) :
    upd m k v k' = m k' := by
  simp [upd, h]

lemma removeFirst_cons_self (c : Conn) (l : List Conn) : removeFirst (c :: l) c = l := by
  simp [removeFirst]

lemma removeFirst_cons_ne (x c : Conn) (l : List Conn) (h : x ≠ c) :
    removeFirst (x :: l) c = x :: removeFirst l c := by
  simp [removeFirst, h]

lemma broadcastLoop_delivered (copy : List Conn) : ∀ live delivered,
    (broadcastLoop live delivered copy).2 = delivered ++ copy.filter (fun c => c.ok) := by
  induction copy with
  | nil => intro live delivered; simp [broadcastLoop]
  | cons c rest ih =>
    intro live delivered
    by_cases hc : c.ok = true
    · simp [broadcastLoop, hc, ih, List.filter_cons]
    · simp [broadcastLoop, hc, ih, List.filter_cons]

lemma broadcastLoop_live_cons (copy : List Conn) :
    ∀ (x : Conn), x.ok = true → ∀ live delivered,
      (broadcastLoop (x :: live) delivered copy).1
        = x :: (broadcastLoop live delivered copy).1 := by
  induction copy with
  | nil => intro x hx live delivered; simp [broadcastLoop]
  | cons c rest ih =>
    intro x hx live delivered
    by_cases hc : c.ok = true
    · simp only [broadcastLoop, hc, if_true]
      exact ih x hx live (delivered ++ [c])
    · have hne : x ≠ c := by
        intro he; rw [he] at hx; exact hc hx
      simp only [broadcastLoop, hc, if_false, Bool.false_eq_true,
        removeFirst_cons_ne x c live hne]
      exact ih x hx (removeFirst live c) delivered

lemma broadcastLoop_self (l : List Conn) : ∀ delivered,
    (broadcastLoop l delivered l).1 = l.filter (fun c => c.ok) := by
  induction l with
  | nil => intro d; simp [broadcastLoop]
  | cons c rest ih =>
    intro d
    by_cases hc : c.ok = true
    · simp only [broadcastLoop, hc, if_true, List.filter_cons, decide_eq_true hc]
      rw [broadcastLoop_live_cons rest c hc rest (d ++ [c]), ih (d ++ [c])]
    · simp only [broadcastLoop, hc, if_false, Bool.false_eq_true,
        removeFirst_cons_self c rest, List.filter_cons]
      rw [ih d]

lemma broadcast_event_delivered (s : ConceptState) (sid : String) (msg : BroadcastMsg)
    (eu : Option String) :
    (broadcast_event s sid msg eu).2
      = (s.websocket_connections sid).filter (fun c => c.ok) := by
  simp [broadcast_event, broadcastLoop_delivered]

lemma broadcast_event_live (s : ConceptState) (sid : String) (msg : BroadcastMsg)
    (eu : Option String) :
    (broadcast_event s sid msg eu).1.websocket_connections sid
      = (s.websocket_connections sid).filter (fun c => c.ok) := by
  simp [broadcast_event, upd_same, broadcastLoop_self]

lemma broadcast_event_sessions (s : ConceptState) (sid : String) (msg : BroadcastMsg)
    (eu : Option String) : (broadcast_event s sid msg eu).1.sessions = s.sessions := rfl

lemma broadcast_event_events (s : ConceptState) (sid : String) (msg : BroadcastMsg)
    (eu : Option String) : (broadcast_event s sid msg eu).1.events = s.events := rfl

lemma broadcast_event_user_sessions (s : ConceptState) (sid : String) (msg : BroadcastMsg)
    (eu : Option String) : (broadcast_event s sid msg eu).1.user_sessions = s.user_sessions := rfl

/-! ### Transform engine lemmas -/

lemma adjustStep_eq_add (p acc : Int) (e : CollaborationEvent) :
    adjustStep p acc e = acc + specShift p e.data := by
  simp only [adjustStep, specShift]
  split_ifs with h1 h2 <;> ring

lemma foldl_adjustStep (p : Int) (l : List CollaborationEvent) : ∀ acc : Int,
    l.foldl (adjustStep p) acc = acc + (l.map (fun e => specShift p e.data)).sum := by
  induction l with
  | nil => intro acc; simp
  | cons e rest ih =>
    intro acc
    simp only [List.foldl_cons, List.map_cons, List.sum_cons, ih, adjustStep_eq_add]
    ring

lemma add_event_none (s : ConceptState) (sid uid k : String) (d : Operation)
    (hs : s.sessions sid = none) :
    add_event s sid uid k d = .error "Session not found" := by
  simp [add_event, hs]

lemma apply_eq_ok (s : ConceptState) (sid : String) (op : Operation) (uid : String)
    (sess : CollaborationSession) (hs : s.sessions sid = some sess) :
    ∃ s', apply_operational_transform s sid op uid
      = .ok (s', transformed_operation s sid op uid) := by
  unfold apply_operational_transform
  cases hadd : add_event s sid uid "operation" (transformed_operation s sid op uid) with
  | error e =>
    exfalso
    simp [add_event, hs] at hadd
  | ok r =>
    obtain ⟨s', e⟩ := r
    refine ⟨s', ?_⟩
    simp only [hadd]

/-- C1: For every session log and every submitted operation with non-negative
position, the transformed insert's position is the submitted position plus
the sum, over the other-user `"operation"` events of the recent window, of
+|text| for an insert at a position ≤ the submitted one and −length for a
delete at a position strictly below it, clamped to a floor of zero; the
transformed delete applies the identical adjustment and carries `length`
through unchanged. -/
theorem transform_position_shift_rule (s : ConceptState) (session_id user_id : String)
    (op : Operation) (h : 0 ≤ op.position) :
    (transform_insert s session_id op user_id).position
      = max 0 (op.position +
          ((recentOps (s.events session_id) user_id).map
            (fun e => specShift op.position e.data)).sum) ∧
    (transform_delete s session_id op user_id).position
      = max 0 (op.position +
          ((recentOps (s.events session_id) user_id).map
            (fun e => specShift op.position e.data)).sum) ∧
    (transform_delete s session_id op user_id).length = op.length := by
  refine ⟨?_, ?_, rfl⟩ <;>
    simp [transform_insert, transform_delete, foldl_adjustStep]

theorem transform_position_shift_rule_witness :
    (0 : Int) ≤ opIns.position ∧
      (transform_insert st0 "s1" opIns "alice").position
        = max 0 (opIns.position +
            ((recentOps (st0.events "s1") "alice").map
              (fun e => specShift opIns.position e.data)).sum) :=
  ⟨by decide, (transform_position_shift_rule st0 "s1" "alice" opIns (by decide)).1⟩

lemma transformed_operation_empty_window (s : ConceptState) (sid : String)
    (op : Operation) (uid : String)
    (hw : recentOps (s.events sid) uid = []) (hp : 0 ≤ op.position) :
    transformed_operation s sid op uid = op := by
  obtain ⟨t, p, tx, l⟩ := op
  have hmax : max 0 p = p := max_eq_right hp
  by_cases hins : t = "insert"
  · subst hins
    simp [transformed_operation, transform_insert, hw, hmax]
  · by_cases hdel : t = "delete"
    · subst hdel
      simp [transformed_operation, transform_delete, hw, hmax, hins]
    · simp [transformed_operation, hins, hdel]

lemma transformed_operation_window_eq (s1 s2 : ConceptState) (sid1 sid2 uid : String)
    (op : Operation)
    (hw : recentOps (s1.events sid1) uid = recentOps (s2.events sid2) uid) :
    transformed_operation s1 sid1 op uid = transformed_operation s2 sid2 op uid := by
  simp only [transformed_operation, transform_insert, transform_delete]
  rw [hw]

/-- C4: For an existing session whose recent window holds no other-user
`"operation"` events, `apply_operational_transform` succeeds and returns the
submitted operation (with non-negative position) unchanged, whatever its
kind. -/
theorem transform_no_concurrency_identity (s : ConceptState) (session_id : String)
    (op : Operation) (user_id : String) (sess : CollaborationSession)
    (hs : s.sessions session_id = some sess)
    (hw : recentOps (s.events session_id) user_id = [])
    (hp : 0 ≤ op.position) :
    ∃ s', apply_operational_transform s session_id op user_id = .ok (s', op) := by
  obtain ⟨s', h'⟩ := apply_eq_ok s session_id op user_id sess hs
  rw [transformed_operation_empty_window s session_id op user_id hw hp] at h'
  exact ⟨s', h'⟩

theorem transform_no_concurrency_identity_witness :
    ∃ s', apply_operational_transform st0 "s1" opIns "alice" = .ok (s', opIns) :=
  transform_no_concurrency_identity st0 "s1" opIns "alice" sess0 rfl (by decide) (by decide)

/-- C8: The transform is deterministic: two runs whose filtered recent
windows (last 10 events restricted to other-user `"operation"` events) agree
and whose submitted operation and user id agree return the same adjusted
operation. -/
theorem transform_deterministic (s1 s2 : ConceptState) (sid1 sid2 user_id : String)
    (op : Operation) (a b : CollaborationSession)
    (h1 : s1.sessions sid1 = some a) (h2 : s2.sessions sid2 = some b)
    (hw : recentOps (s1.events sid1) user_id = recentOps (s2.events sid2) user_id) :
    ∃ t1 t2 r, apply_operational_transform s1 sid1 op user_id = .ok (t1, r)
      ∧ apply_operational_transform s2 sid2 op user_id = .ok (t2, r) := by
  obtain ⟨t1, e1⟩ := apply_eq_ok s1 sid1 op user_id a h1
  obtain ⟨t2, e2⟩ := apply_eq_ok s2 sid2 op user_id b h2
  refine ⟨t1, t2, transformed_operation s1 sid1 op user_id, e1, ?_⟩
  rw [← transformed_operation_window_eq s1 s2 sid1 sid2 user_id op hw] at e2
  exact e2

theorem transform_deterministic_witness :
    ∃ t1 t2 r, apply_operational_transform st0 "s1" opIns "alice" = .ok (t1, r)
      ∧ apply_operational_transform st0 "s1" opIns "alice" = .ok (t2, r) :=
  transform_deterministic st0 st0 "s1" "s1" "alice" opIns sess0 sess0 rfl rfl rfl

/-! ### Operation shape lemmas -/

lemma upd_upd {α : Type} (m : String → α) (k : String) (v v' : α) :
    upd (upd m k v) k v' = upd m k v' := by
  funext k'
  by_cases h : k' = k <;> simp [upd, h]

lemma join_session_none (s : ConceptState) (sid uid : String)
    (hs : s.sessions sid = none) : join_session s sid uid = (s, false) := by
  simp [join_session, hs]

lemma join_session_inactive (s : ConceptState) (sid uid : String)
    (sess : CollaborationSession) (hs : s.sessions sid = some sess)
    (ha : sess.is_active = false) : join_session s sid uid = (s, false) := by
  simp [join_session, hs, ha]

lemma join_session_active (s : ConceptState) (sid uid : String)
    (sess : CollaborationSession) (hs : s.sessions sid = some sess)
    (ha : sess.is_active = true) :
    (join_session s sid uid).2 = true ∧
    (join_session s sid uid).1.sessions
      = upd s.sessions sid (some { sess with participants := sess.participants.insert uid }) ∧
    (join_session s sid uid).1.user_sessions
      = (fun u => if u = uid then (s.user_sessions u).insert sid else s.user_sessions u) ∧
    (join_session s sid uid).1.events = s.events ∧
    (join_session s sid uid).1.next_event_id = s.next_event_id := by
  refine ⟨?_, ?_, ?_, ?_, ?_⟩ <;> simp [join_session, hs, ha, broadcast_event]

lemma leave_session_none (s : ConceptState) (sid uid : String)
    (hs : s.sessions sid = none) : leave_session s sid uid = (s, false) := by
  simp [leave_session, hs]

lemma leave_session_some (s : ConceptState) (sid uid : String)
    (sess : CollaborationSession) (hs : s.sessions sid = some sess) :
    (leave_session s sid uid).2 = true ∧
    (leave_session s sid uid).1.sessions
      = upd s.sessions sid (some (leaveResultSession sess uid)) ∧
    (leave_session s sid uid).1.user_sessions
      = (fun u => if u = uid then (s.user_sessions u).filter (fun x => x ≠ sid)
          else s.user_sessions u) ∧
    (leave_session s sid uid).1.events = s.events ∧
    (leave_session s sid uid).1.next_event_id = s.next_event_id := by
  by_cases he : (sess.participants.filter (fun x => x ≠ uid)).isEmpty
  · refine ⟨?_, ?_, ?_, ?_, ?_⟩ <;>
      simp only [leave_session, hs, broadcast_event, leaveResultSession, he,
        eq_self_iff_true, if_true, upd_upd]
  · have he' : (sess.participants.filter (fun x => x ≠ uid)).isEmpty = false :=
      Bool.eq_false_iff.mpr he
    refine ⟨?_, ?_, ?_, ?_, ?_⟩ <;>
      simp only [leave_session, hs, broadcast_event, leaveResultSession, he',
        Bool.false_eq_true, if_false, upd_upd]

lemma add_event_error_iff (s : ConceptState) (sid uid k : String) (d : Operation) :
    (∃ err, add_event s sid uid k d = .error err) ↔ s.sessions sid = none := by
  cases hs : s.sessions sid with
  | none => simp [add_event, hs]
  | some sess => simp [add_event, hs]

lemma add_event_ok_spec (s : ConceptState) (sid uid k : String) (d : Operation)
    (s' : ConceptState) (e : CollaborationEvent)
    (h : add_event s sid uid k d = .ok (s', e)) :
    e = { event_id := s.next_event_id, session_id := sid, user_id := uid
          event_type := k, data := d } ∧
    s'.sessions = s.sessions ∧
    s'.user_sessions = s.user_sessions ∧
    s'.events sid = s.events sid ++ [e] ∧
    (∀ sid', sid' ≠ sid → s'.events sid' = s.events sid') ∧
    s'.next_event_id = s.next_event_id + 1 := by
  cases hs : s.sessions sid with
  | none => rw [add_event_none s sid uid k d hs] at h; cases h
  | some sess =>
    simp only [add_event, hs] at h
    injection h with h'
    injection h' with hS hE
    subst hS
    subst hE
    refine ⟨rfl, rfl, rfl, ?_, ?_, rfl⟩
    · exact upd_same _ _ _
    · intro sid' hne
      exact upd_ne _ _ _ _ hne

/-- C5: `join_session` returns false exactly on an unknown or inactive
session; on an active session it adds the user to the participant set and
returns true; and a second identical join leaves the stored participant set
(indeed the whole stored session record) equal to the result of the first
join. -/
theorem join_session_contract (s : ConceptState) (session_id user_id : String) :
    ((join_session s session_id user_id).2 = false ↔
      s.sessions session_id = none ∨
        ∃ sess, s.sessions session_id = some sess ∧ sess.is_active = false) ∧
    (∀ sess, s.sessions session_id = some sess → sess.is_active = true →
      (join_session s session_id user_id).2 = true ∧
      (join_session s session_id user_id).1.sessions session_id
        = some { sess with participants := sess.participants.insert user_id }) ∧
    ((join_session (join_session s session_id user_id).1 session_id user_id).1.sessions
        session_id
      = (join_session s session_id user_id).1.sessions session_id) := by
  cases hs : s.sessions session_id with
  | none =>
    refine ⟨?_, ?_, ?_⟩
    · simp [join_session_none s session_id user_id hs, hs]
    · intro sess h
      exact Option.noConfusion h
    · simp [join_session_none s session_id user_id hs]
  | some sess =>
    by_cases ha : sess.is_active = true
    · obtain ⟨hj2, hjs, hju, hje, hjn⟩ := join_session_active s session_id user_id sess hs ha
      have hlook : (join_session s session_id user_id).1.sessions session_id
          = some { sess with participants := sess.participants.insert user_id } := by
        rw [hjs, upd_same]
      refine ⟨?_, ?_, ?_⟩
      · refine iff_of_false (by simp [hj2]) ?_
        rintro (hnone | ⟨sess', hsome, hfalse⟩)
        · exact Option.noConfusion hnone
        · injection hsome with hsess
          subst hsess
          rw [ha] at hfalse
          exact Bool.noConfusion hfalse
      · intro sess' h ha'
        injection h with hsess
        subst hsess
        exact ⟨hj2, hlook⟩
      · have ha1 : ({ sess with participants := sess.participants.insert user_id }
            : CollaborationSession).is_active = true := ha
        obtain ⟨_, hjs2, _, _, _⟩ := join_session_active
          (join_session s session_id user_id).1 session_id user_id _ hlook ha1
        rw [hjs2, upd_same, hlook]
        congr 2
        simp [List.insert_of_mem (List.mem_insert_self user_id sess.participants)]
    · have hf : sess.is_active = false := Bool.eq_false_iff.mpr ha
      refine ⟨?_, ?_, ?_⟩
      · exact iff_of_true
          (by simp [join_session_inactive s session_id user_id sess hs hf])
          (Or.inr ⟨sess, rfl, hf⟩)
      · intro sess' h ha'
        injection h with hsess
        subst hsess
        rw [ha'] at hf
        exact Bool.noConfusion hf
      · simp [join_session_inactive s session_id user_id sess hs hf]

theorem join_session_contract_witness :
    ((join_session st0 "s1" "bob").2 = false ↔
      st0.sessions "s1" = none ∨
        ∃ sess, st0.sessions "s1" = some sess ∧ sess.is_active = false) :=
  (join_session_contract st0 "s1" "bob").1

/-- C7: a failing channel is isolated: `add_event` on an existing session
always succeeds no matter which channels are dead, and every broadcast
delivers the message to exactly the live (`ok`) channels while removing the
failed ones from the session's subscription list. -/
theorem broadcast_failure_isolation (s : ConceptState)
    (session_id user_id event_type : String) (data : Operation)
    (sess : CollaborationSession) (hs : s.sessions session_id = some sess) :
    (∃ r, add_event s session_id user_id event_type data = .ok r) ∧
    (∀ (st : ConceptState) (sid : String) (msg : BroadcastMsg) (eu : Option String),
      (broadcast_event st sid msg eu).2
        = (st.websocket_connections sid).filter (fun c => c.ok) ∧
      (broadcast_event st sid msg eu).1.websocket_connections sid
        = (st.websocket_connections sid).filter (fun c => c.ok)) := by
  constructor
  · cases hadd : add_event s session_id user_id event_type data with
    | error err =>
      exfalso
      simp [add_event, hs] at hadd
    | ok r => exact ⟨r, rfl⟩
  · intro st sid msg eu
    exact ⟨broadcast_event_delivered st sid msg eu, broadcast_event_live st sid msg eu⟩

theorem broadcast_failure_isolation_witness :
    ∃ r, add_event st0 "s1" "alice" "edit" opIns = .ok r :=
  (broadcast_failure_isolation st0 "s1" "alice" "edit" opIns sess0 rfl).1

/-- C10: the `exclude_user` argument that `add_event` passes to the internal
broadcast has no effect: broadcasting with any exclusion equals broadcasting
with none, and the delivered set is always every registered channel whose
send succeeds — including any channel of the authoring user. -/
theorem broadcast_exclude_user_no_effect (s : ConceptState) (session_id : String)
    (msg : BroadcastMsg) (exclude_user : Option String) :
    broadcast_event s session_id msg exclude_user
      = broadcast_event s session_id msg none ∧
    (broadcast_event s session_id msg exclude_user).2
      = (s.websocket_connections session_id).filter (fun c => c.ok) :=
  ⟨rfl, broadcast_event_delivered s session_id msg exclude_user⟩

theorem broadcast_exclude_user_no_effect_witness :
    broadcast_event st0 "s1" msg0 (some "alice") = broadcast_event st0 "s1" msg0 none :=
  (broadcast_exclude_user_no_effect st0 "s1" msg0 (some "alice")).1

/-- C3 counterexample: in the concrete reachable state `st1` the session
`"s1"` is inactive, yet `add_event` succeeds on it and appends to its log —
refuting the claim that an inactive session accepts no new events. -/
theorem inactive_session_accepts_event_cex :
    (st1.sessions "s1").map (fun sess => sess.is_active) = some false ∧
    ∃ s' e, add_event st1 "s1" "bob" "edit" opIns = .ok (s', e) ∧
      (s'.events "s1").length = (st1.events "s1").length + 1 := by
  refine ⟨by decide, ?_⟩
  exact ⟨_, _, rfl, by decide⟩

/-- C3 (amended): for a session whose `is_active` flag is false,
`join_session` returns false and leaves the state unchanged, but `add_event`
checks only existence: it succeeds on the inactive session and appends the
event to its log. -/
theorem inactive_session_join_refused_event_appended (s : ConceptState)
    (session_id user_id event_type : String) (data : Operation)
    (sess : CollaborationSession)
    (hs : s.sessions session_id = some sess) (hi : sess.is_active = false) :
    join_session s session_id user_id = (s, false) ∧
    ∃ s' e, add_event s session_id user_id event_type data = .ok (s', e) ∧
      s'.events session_id = s.events session_id ++ [e] := by
  refine ⟨join_session_inactive s session_id user_id sess hs hi, ?_⟩
  cases hadd : add_event s session_id user_id event_type data with
  | error err =>
    exfalso
    simp [add_event, hs] at hadd
  | ok r =>
    obtain ⟨s', e⟩ := r
    obtain ⟨_, _, _, happ, _, _⟩ :=
      add_event_ok_spec s session_id user_id event_type data s' e hadd
    exact ⟨s', e, rfl, happ⟩

theorem inactive_session_join_refused_event_appended_witness :
    join_session st1 "s1" "carol" = (st1, false) ∧
    ∃ s' e, add_event st1 "s1" "carol" "edit" opIns = .ok (s', e) ∧
      s'.events "s1" = st1.events "s1" ++ [e] :=
  inactive_session_join_refused_event_appended st1 "s1" "carol" "edit" opIns
    sessInactive (by decide) (by decide)

/-! ### Invariant preservation -/

lemma insert_ne_nil (a : String) (l : List String) : l.insert a ≠ [] := by
  by_cases h : a ∈ l
  · rw [List.insert_of_mem h]
    exact List.ne_nil_of_mem h
  · rw [List.insert_of_not_mem h]
    exact List.cons_ne_nil a l

lemma create_session_sessions (s : ConceptState) (sid mid cb : String) :
    (create_session s sid mid cb).1.sessions
      = upd s.sessions sid (some (create_session s sid mid cb).2) := rfl

lemma create_session_events (s : ConceptState) (sid mid cb : String) :
    (create_session s sid mid cb).1.events = upd s.events sid [] := rfl

lemma create_session_user_sessions_apply (s : ConceptState) (sid mid cb u : String) :
    (create_session s sid mid cb).1.user_sessions u
      = if u = cb then (s.user_sessions u).insert sid else s.user_sessions u := rfl

lemma create_session_next_event_id (s : ConceptState) (sid mid cb : String) :
    (create_session s sid mid cb).1.next_event_id = s.next_event_id := rfl

lemma step_activeNonempty {s s' : ConceptState} (h : ActiveNonempty s)
    (hstep : Step s s') : ActiveNonempty s' := by
  cases hstep with
  | create sid mid cb hfresh =>
    intro sid' sess' hlook ha
    rw [create_session_sessions] at hlook
    by_cases hd : sid' = sid
    · subst hd
      rw [upd_same] at hlook
      injection hlook with h'
      subst h'
      exact List.cons_ne_nil cb []
    · rw [upd_ne _ _ _ _ hd] at hlook
      exact h sid' sess' hlook ha
  | join sid uid =>
    intro sid' sess' hlook ha
    cases hs : s.sessions sid with
    | none =>
      rw [join_session_none s sid uid hs] at hlook
      exact h sid' sess' hlook ha
    | some sess =>
      by_cases hact : sess.is_active = true
      · obtain ⟨_, hjs, _, _, _⟩ := join_session_active s sid uid sess hs hact
        rw [hjs] at hlook
        by_cases hd : sid' = sid
        · subst hd
          rw [upd_same] at hlook
          injection hlook with h'
          subst h'
          exact insert_ne_nil uid sess.participants
        · rw [upd_ne _ _ _ _ hd] at hlook
          exact h sid' sess' hlook ha
      · rw [join_session_inactive s sid uid sess hs (Bool.eq_false_iff.mpr hact)] at hlook
        exact h sid' sess' hlook ha
  | leave sid uid =>
    intro sid' sess' hlook ha
    cases hs : s.sessions sid with
    | none =>
      rw [leave_session_none s sid uid hs] at hlook
      exact h sid' sess' hlook ha
    | some sess =>
      obtain ⟨_, hls, _, _, _⟩ := leave_session_some s sid uid sess hs
      rw [hls] at hlook
      by_cases hd : sid' = sid
      · subst hd
        rw [upd_same] at hlook
        injection hlook with h'
        subst h'
        simp only [leaveResultSession] at ha ⊢
        by_cases he : (sess.participants.filter (fun x => x ≠ uid)).isEmpty
        · rw [if_pos he] at ha
          exact Bool.noConfusion ha
        · intro hc
          apply he
          rw [hc]
          rfl
      · rw [upd_ne _ _ _ _ hd] at hlook
        exact h sid' sess' hlook ha
  | addE sid uid k d s2 e hadd =>
    intro sid' sess' hlook ha
    obtain ⟨_, hsess, _, _, _, _⟩ := add_event_ok_spec s sid uid k d s' e hadd
    rw [hsess] at hlook
    exact h sid' sess' hlook ha

lemma reachable_activeNonempty {s : ConceptState} (hr : Reachable s) :
    ActiveNonempty s := by
  induction hr with
  | init =>
    intro sid sess hlook ha
    exact Option.noConfusion hlook
  | step hr hstep ih => exact step_activeNonempty ih hstep

lemma step_indexConsistent {s s' : ConceptState} (h : IndexConsistent s)
    (hstep : Step s s') : IndexConsistent s' := by
  cases hstep with
  | create sid mid cb hfresh =>
    intro u sid'
    rw [create_session_sessions, create_session_user_sessions_apply]
    by_cases hd : sid' = sid
    · subst hd
      rw [upd_same]
      constructor
      · intro hmem
        refine ⟨_, rfl, ?_⟩
        by_cases hu : u = cb
        · subst hu
          exact List.mem_singleton.mpr rfl
        · rw [if_neg hu] at hmem
          obtain ⟨sess, hsess, _⟩ := (h u sid').mp hmem
          rw [hfresh] at hsess
          exact Option.noConfusion hsess
      · rintro ⟨sess, hsess, hpart⟩
        injection hsess with h'
        subst h'
        have hu : u = cb := List.mem_singleton.mp hpart
        subst hu
        rw [if_pos rfl]
        exact List.mem_insert_self sid' _
    · rw [upd_ne _ _ _ _ hd, ← h u sid']
      by_cases hu : u = cb
      · subst hu
        rw [if_pos rfl, List.mem_insert_iff]
        simp [hd]
      · rw [if_neg hu]
  | join sid uid =>
    intro u sid'
    cases hs : s.sessions sid with
    | none =>
      rw [join_session_none s sid uid hs]
      exact h u sid'
    | some sess =>
      by_cases hact : sess.is_active = true
      · obtain ⟨_, hjs, hju, _, _⟩ := join_session_active s sid uid sess hs hact
        rw [hjs, congrFun hju u]
        by_cases hd : sid' = sid
        · subst hd
          rw [upd_same]
          constructor
          · intro hmem
            refine ⟨_, rfl, ?_⟩
            by_cases hu : u = uid
            · subst hu
              exact List.mem_insert_self u _
            · rw [if_neg hu] at hmem
              obtain ⟨sess2, hsess2, hp⟩ := (h u sid').mp hmem
              rw [hs] at hsess2
              injection hsess2 with h2
              subst h2
              exact List.mem_insert_of_mem hp
          · rintro ⟨sess2, hsess2, hp⟩
            injection hsess2 with h2
            subst h2
            by_cases hu : u = uid
            · subst hu
              rw [if_pos rfl]
              exact List.mem_insert_self sid' _
            · rw [if_neg hu]
              have hp' : u ∈ sess.participants := by
                rcases List.mem_insert_iff.mp hp with h' | h'
                · exact absurd h' hu
                · exact h'
              exact (h u sid').mpr ⟨sess, hs, hp'⟩
        · rw [upd_ne _ _ _ _ hd, ← h u sid']
          by_cases hu : u = uid
          · subst hu
            rw [if_pos rfl, List.mem_insert_iff]
            simp [hd]
          · rw [if_neg hu]
      · rw [join_session_inactive s sid uid sess hs (Bool.eq_false_iff.mpr hact)]
        exact h u sid'
  | leave sid uid =>
    intro u sid'
    cases hs : s.sessions sid with
    | none =>
      rw [leave_session_none s sid uid hs]
      exact h u sid'
    | some sess =>
      obtain ⟨_, hls, hlu, _, _⟩ := leave_session_some s sid uid sess hs
      rw [hls, congrFun hlu u]
      by_cases hd : sid' = sid
      · subst hd
        rw [upd_same]
        constructor
        · intro hmem
          refine ⟨_, rfl, ?_⟩
          by_cases hu : u = uid
          · subst hu
            rw [if_pos rfl] at hmem
            exfalso
            have hmf := (List.mem_filter.mp hmem).2
            simp at hmf
          · rw [if_neg hu] at hmem
            obtain ⟨sess2, hsess2, hp⟩ := (h u sid').mp hmem
            rw [hs] at hsess2
            injection hsess2 with h2
            subst h2
            simp only [leaveResultSession]
            exact List.mem_filter.mpr ⟨hp, by simpa using hu⟩
        · rintro ⟨sess2, hsess2, hp⟩
          injection hsess2 with h2
          subst h2
          simp only [leaveResultSession] at hp
          have hp' := List.mem_filter.mp hp
          have hu : ¬u = uid := by simpa using hp'.2
          rw [if_neg hu]
          exact (h u sid').mpr ⟨sess, hs, hp'.1⟩
      · rw [upd_ne _ _ _ _ hd, ← h u sid']
        by_cases hu : u = uid
        · subst hu
          rw [if_pos rfl]
          constructor
          · intro hm
            exact (List.mem_filter.mp hm).1
          · intro hm
            exact List.mem_filter.mpr ⟨hm, by simpa using hd⟩
        · rw [if_neg hu]
  | addE sid uid k d s2 e hadd =>
    intro u sid'
    obtain ⟨_, hsess, husr, _, _, _⟩ := add_event_ok_spec s sid uid k d s' e hadd
    rw [hsess, husr]
    exact h u sid'

lemma reachable_indexConsistent {s : ConceptState} (hr : Reachable s) :
    IndexConsistent s := by
  induction hr with
  | init =>
    intro u sid
    constructor
    · intro hmem
      exact absurd hmem (List.not_mem_nil sid)
    · rintro ⟨sess, hsess, _⟩
      exact Option.noConfusion hsess
  | step hr hstep ih => exact step_indexConsistent ih hstep

lemma step_eventIdsBounded {s s' : ConceptState} (h : EventIdsBounded s)
    (hstep : Step s s') : EventIdsBounded s' := by
  cases hstep with
  | create sid mid cb hfresh =>
    intro sid' e hmem
    rw [create_session_events] at hmem
    rw [create_session_next_event_id]
    by_cases hd : sid' = sid
    · subst hd
      rw [upd_same] at hmem
      exact absurd hmem (List.not_mem_nil e)
    · rw [upd_ne _ _ _ _ hd] at hmem
      exact h sid' e hmem
  | join sid uid =>
    intro sid' e hmem
    cases hs : s.sessions sid with
    | none =>
      rw [join_session_none s sid uid hs] at hmem ⊢
      exact h sid' e hmem
    | some sess =>
      by_cases hact : sess.is_active = true
      · obtain ⟨_, _, _, hje, hjn⟩ := join_session_active s sid uid sess hs hact
        rw [hje] at hmem
        rw [hjn]
        exact h sid' e hmem
      · rw [join_session_inactive s sid uid sess hs (Bool.eq_false_iff.mpr hact)] at hmem ⊢
        exact h sid' e hmem
  | leave sid uid =>
    intro sid' e hmem
    cases hs : s.sessions sid with
    | none =>
      rw [leave_session_none s sid uid hs] at hmem ⊢
      exact h sid' e hmem
    | some sess =>
      obtain ⟨_, _, _, hle, hln⟩ := leave_session_some s sid uid sess hs
      rw [hle] at hmem
      rw [hln]
      exact h sid' e hmem
  | addE sid uid k d s2 e hadd =>
    intro sid' e2 hmem
    obtain ⟨hE, _, _, happ, hother, hnext⟩ := add_event_ok_spec s sid uid k d s' e hadd
    rw [hnext]
    by_cases hd : sid' = sid
    · subst hd
      rw [happ] at hmem
      rcases List.mem_append.mp hmem with hm | hm
      · exact Nat.lt_succ_of_lt (h sid' e2 hm)
      · have he2 : e2 = e := List.mem_singleton.mp hm
        subst he2
        rw [hE]
        exact Nat.lt_succ_self _
    · rw [hother sid' hd] at hmem
      exact Nat.lt_succ_of_lt (h sid' e2 hmem)

lemma reachable_eventIdsBounded {s : ConceptState} (hr : Reachable s) :
    EventIdsBounded s := by
  induction hr with
  | init =>
    intro sid e hmem
    exact absurd hmem (List.not_mem_nil e)
  | step hr hstep ih => exact step_eventIdsBounded ih hstep

lemma isEmpty_true_iff (l : List String) : l.isEmpty = true ↔ l = [] := by
  cases l <;> simp

/-- C2: in every reachable state, every active session has a non-empty
participant set; and a session becomes inactive exactly at the
`leave_session` call that empties its participant set — a leave on the same
session deactivates it iff it removed the last participant, while a leave on
another session, a join, a create (with a fresh id), or an `add_event` never
deactivates an active session. -/
theorem session_active_lifecycle (s : ConceptState) (hr : Reachable s) :
    (∀ sid sess, s.sessions sid = some sess → sess.is_active = true →
      sess.participants ≠ []) ∧
    (∀ sid uid sess sess', s.sessions sid = some sess → sess.is_active = true →
      (leave_session s sid uid).1.sessions sid = some sess' →
      (sess'.is_active = false ↔
        sess.participants.filter (fun x => x ≠ uid) = [])) ∧
    (∀ sid sid' uid sess sess', s.sessions sid = some sess → sess.is_active = true →
      sid ≠ sid' → (leave_session s sid' uid).1.sessions sid = some sess' →
      sess'.is_active = true) ∧
    (∀ sid sid' uid sess sess', s.sessions sid = some sess → sess.is_active = true →
      (join_session s sid' uid).1.sessions sid = some sess' →
      sess'.is_active = true) ∧
    (∀ sid sid' mid cb sess sess', s.sessions sid = some sess → sess.is_active = true →
      s.sessions sid' = none →
      (create_session s sid' mid cb).1.sessions sid = some sess' →
      sess'.is_active = true) ∧
    (∀ sid sid' uid k d t e sess sess', s.sessions sid = some sess →
      sess.is_active = true → add_event s sid' uid k d = .ok (t, e) →
      t.sessions sid = some sess' → sess'.is_active = true) := by
  refine ⟨reachable_activeNonempty hr, ?_, ?_, ?_, ?_, ?_⟩
  · intro sid uid sess sess' hsome hact hlook
    obtain ⟨_, hls, _, _, _⟩ := leave_session_some s sid uid sess hsome
    rw [hls, upd_same] at hlook
    injection hlook with h2
    subst h2
    simp only [leaveResultSession]
    by_cases he : (sess.participants.filter (fun x => x ≠ uid)).isEmpty
    · rw [if_pos he]
      exact iff_of_true rfl ((isEmpty_true_iff _).mp he)
    · rw [if_neg he]
      refine iff_of_false ?_ ?_
      · rw [hact]
        exact fun hc => Bool.noConfusion hc
      · exact fun hc => he ((isEmpty_true_iff _).mpr hc)
  · intro sid sid' uid sess sess' hsome hact hne hlook
    cases hs' : s.sessions sid' with
    | none =>
      rw [leave_session_none s sid' uid hs'] at hlook
      rw [hsome] at hlook
      injection hlook with h2
      subst h2
      exact hact
    | some sess2 =>
      obtain ⟨_, hls, _, _, _⟩ := leave_session_some s sid' uid sess2 hs'
      rw [hls, upd_ne _ _ _ _ hne, hsome] at hlook
      injection hlook with h2
      subst h2
      exact hact
  · intro sid sid' uid sess sess' hsome hact hlook
    cases hs' : s.sessions sid' with
    | none =>
      rw [join_session_none s sid' uid hs'] at hlook
      rw [hsome] at hlook
      injection hlook with h2
      subst h2
      exact hact
    | some sess2 =>
      by_cases hact2 : sess2.is_active = true
      · obtain ⟨_, hjs, _, _, _⟩ := join_session_active s sid' uid sess2 hs' hact2
        rw [hjs] at hlook
        by_cases hd : sid = sid'
        · subst hd
          rw [upd_same] at hlook
          injection hlook with h2
          subst h2
          exact hact2
        · rw [upd_ne _ _ _ _ hd, hsome] at hlook
          injection hlook with h2
          subst h2
          exact hact
      · rw [join_session_inactive s sid' uid sess2 hs'
          (Bool.eq_false_iff.mpr hact2)] at hlook
        rw [hsome] at hlook
        injection hlook with h2
        subst h2
        exact hact
  · intro sid sid' mid cb sess sess' hsome hact hfresh hlook
    have hne : sid = sid' → False := by
      intro hd
      rw [hd, hfresh] at hsome
      exact Option.noConfusion hsome
    rw [create_session_sessions, upd_ne _ _ _ _ hne, hsome] at hlook
    injection hlook with h2
    subst h2
    exact hact
  · intro sid sid' uid k d t e sess sess' hsome hact hadd hlook
    obtain ⟨_, hsess, _, _, _, _⟩ := add_event_ok_spec s sid' uid k d t e hadd
    rw [hsess, hsome] at hlook
    injection hlook with h2
    subst h2
    exact hact

theorem session_active_lifecycle_witness :
    sess0.participants ≠ [] :=
  (session_active_lifecycle st0
    (Reachable.step Reachable.init (Step.create initState "s1" "m1" "alice" rfl))).1
    "s1" sess0 rfl rfl

/-- C9: in every reachable state the reverse user→sessions index is
consistent with the authoritative participant sets: a session id lies in
`user_sessions u` iff `u` lies in that session's participant set. -/
theorem user_index_consistent (s : ConceptState) (hr : Reachable s) :
    ∀ u sid, sid ∈ s.user_sessions u ↔
      ∃ sess, s.sessions sid = some sess ∧ u ∈ sess.participants :=
  reachable_indexConsistent hr

theorem user_index_consistent_witness :
    "s1" ∈ st0.user_sessions "alice" ↔
      ∃ sess, st0.sessions "s1" = some sess ∧ "alice" ∈ sess.participants :=
  user_index_consistent st0
    (Reachable.step Reachable.init (Step.create initState "s1" "m1" "alice" rfl))
    "alice" "s1"

/-- C6: `add_event` fails (raises) exactly when the session id is unknown —
the error path touches no state — and on success it appends exactly one
event, with an id fresh among the session's logged events, to the end of
that session's log, leaving every other log, the sessions map, and the
reverse index unchanged. -/
theorem add_event_contract (s : ConceptState) (hr : Reachable s)
    (session_id user_id event_type : String) (data : Operation) :
    ((∃ err, add_event s session_id user_id event_type data = .error err) ↔
      s.sessions session_id = none) ∧
    (∀ s' e, add_event s session_id user_id event_type data = .ok (s', e) →
      s'.events session_id = s.events session_id ++ [e] ∧
      (s'.events session_id).length = (s.events session_id).length + 1 ∧
      (∀ e', e' ∈ s.events session_id → e'.event_id ≠ e.event_id) ∧
      (∀ sid', sid' ≠ session_id → s'.events sid' = s.events sid') ∧
      s'.sessions = s.sessions ∧
      s'.user_sessions = s.user_sessions) := by
  refine ⟨add_event_error_iff s session_id user_id event_type data, ?_⟩
  intro s' e hadd
  obtain ⟨hE, hsess, husr, happ, hother, _⟩ :=
    add_event_ok_spec s session_id user_id event_type data s' e hadd
  refine ⟨happ, by rw [happ]; simp, ?_, hother, hsess, husr⟩
  intro e' hmem heq
  have hlt := reachable_eventIdsBounded hr session_id e' hmem
  rw [heq, hE] at hlt
  exact lt_irrefl _ hlt

theorem add_event_contract_witness :
    (∃ err, add_event st0 "s1" "alice" "edit" opIns = .error err) ↔
      st0.sessions "s1" = none :=
  (add_event_contract st0
    (Reachable.step Reachable.init (Step.create initState "s1" "m1" "alice" rfl))
    "s1" "alice" "edit" opIns).1
